import Mathlib

/-! Floower automaton.

A shallow embedding of `src/src/floower-esp32/automaton.cpp`: the touch driven
state automaton of the flower (`Automaton::onLeafTouch`,
`Automaton::onRemoteTookOver`, `Automaton::changeState`) and its colour picker
(`Automaton::nextRandomColor`).

The automaton talks to two collaborators, the actuator (`floower->...`) and the
wireless remote (`remote->...`).  Calls that command a collaborator are recorded,
in program order, in a list of `Command`; calls that read from the actuator
(`isIdle`, `isLit`, `getPetalsOpenLevel`) and from the random generator are
inputs of the embedded function.
-/

namespace Floower

/-! ## Data model -/

/-- State codes, the `#define STATE_...` lines of automaton.cpp.  The field
`state` is a `uint8_t`, embedded as a natural number. -/
def STATE_STANDBY : Nat := 0
def STATE_OPEN_LIT : Nat := 1
def STATE_CLOSED_LIT : Nat := 2
def STATE_OPEN_RAINBOW : Nat := 3
def STATE_CLOSED_RAINBOW : Nat := 4
def STATE_REMOTE_INIT : Nat := 5

/-- Modelled from the spec: the enumeration `FloowerTouchEvent` is declared in a
header that is not part of the given sources; the spec lists its four members
(PressStart, Release, LongPress, HoldPress), named here as `onLeafTouch` names
them in its `switch`. -/
inductive FloowerTouchEvent where
  | TOUCH_DOWN
  | TOUCH_UP
  | TOUCH_LONG
  | TOUCH_HOLD
  deriving DecidableEq, Repr

/-- An RGB triple (`RgbColor`). -/
structure RgbColor where
  R : Nat
  G : Nat
  B : Nat
  deriving DecidableEq, Repr

/-- Modelled from the spec: the enumeration `FloowerColorMode` is declared in a
header that is not part of the given sources; these are the two members that
automaton.cpp uses (a fade to a colour, and a flash of a colour). -/
inductive FloowerColorMode where
  | TRANSITION
  | FLASH
  deriving DecidableEq, Repr

/-- One call that commands a collaborator, with its arguments.  The first four
are calls on the actuator (`floower->`), the last three on the remote
(`remote->`). -/
inductive Command where
  | stopRainbowRetainColor
  | setColor (color : RgbColor) (mode : FloowerColorMode) (ms : Nat)
  | setPetalsOpenLevel (level : Nat) (ms : Nat)
  | startRainbow
  | remoteInit
  | remoteStartAdvertising
  | remoteStopAdvertising
  deriving DecidableEq, Repr

/-- The two colour constants `colorBlack` and `colorBlue` that automaton.cpp
refers to; they are declared outside the given sources, so they are taken as
given values. -/
structure Colors where
  colorBlack : RgbColor
  colorBlue : RgbColor

/-- The fields of `Config` read by the automaton: the palette size
`colorSchemeSize` and the palette `colorScheme`, an array read by index. -/
structure Config where
  colorSchemeSize : Nat
  colorScheme : Nat → RgbColor

/-- What the actuator reports when the automaton asks: `isIdle()`, `isLit()` and
`getPetalsOpenLevel()`. -/
structure Feedback where
  isIdle : Bool
  isLit : Bool
  petalsOpenLevel : Int

/-- The mutable fields of the class `Automaton`: `state`, `disabledTouchUp` and
`colorsUsed` (an `unsigned long`, 32 bits wide on the ESP32). -/
structure Automaton where
  state : Nat
  disabledTouchUp : Bool
  colorsUsed : Nat
  deriving DecidableEq, Repr

/-! ## Colour picker -/

/-- The `do ... while` loop of `nextRandomColor`.  The first argument is the value
of `maxIterations` when the body is entered, `pos` is the number of draws made so
far, and `random` lists the values that successive calls `random(0, size)` return.
The result is the final `colorIndex` together with the number of draws made.

In the body, `colorIndex` is a `uint8_t` (hence `% 256`) and `colorCode` is
`1 << colorIndex` seen as a 32 bit word.  After `maxIterations--` the loop goes
round again when the drawn bit is already in `colorsUsed` and `maxIterations > 0`.
When the body is entered with `maxIterations = 0` the decrement gives `-1` and the
loop stops. -/
def drawLoop (colorsUsed : Nat) (random : Nat → Nat) : Nat → Nat → Nat × Nat
  | 0, pos => (random pos % 256, pos + 1)
  | maxIterations + 1, pos =>
    let colorIndex := random pos % 256
    let colorCode := (1 <<< colorIndex) % 2 ^ 32
    if (colorsUsed &&& colorCode) > 0 ∧ maxIterations > 0 then
      drawLoop colorsUsed random maxIterations (pos + 1)
    else
      (colorIndex, pos + 1)

/-- The used colour mask after the reset test that opens `nextRandomColor`:
when `colorsUsed > 0` and `colorsUsed` equals `pow(2, colorSchemeSize) - 1`
(as an `unsigned long`) the mask is cleared. -/
def resetIfAllUsed (config : Config) (colorsUsed : Nat) : Nat :=
  if colorsUsed > 0 then
    let maxColors := (2 ^ config.colorSchemeSize - 1) % 2 ^ 32
    if maxColors = colorsUsed then 0 else colorsUsed
  else colorsUsed

/-- Result of one call of `nextRandomColor`: the colour returned, the index it was
read at, the mask afterwards and the number of random draws made. -/
structure Pick where
  color : RgbColor
  colorIndex : Nat
  colorsUsed : Nat
  draws : Nat
  deriving DecidableEq, Repr

/-- Embedding of `Automaton::nextRandomColor`. -/
def nextRandomColor (config : Config) (random : Nat → Nat) (colorsUsed : Nat) : Pick :=
  let colorsUsed := resetIfAllUsed config colorsUsed
  let maxIterations := config.colorSchemeSize * 3
  let r := drawLoop colorsUsed random maxIterations 0
  let colorIndex := r.1
  let colorCode := (1 <<< colorIndex) % 2 ^ 32
  { color := config.colorScheme colorIndex
    colorIndex := colorIndex
    colorsUsed := (colorsUsed + colorCode) % 2 ^ 32
    draws := r.2 }

/-! ## Automaton -/

/-- Embedding of `Automaton::changeState`. -/
def changeState (a : Automaton) (newState : Nat) : Automaton :=
  if a.state ≠ newState then { a with state := newState } else a

/-- Embedding of `Automaton::onLeafTouch`: the automaton after the call and the
commands issued, in order. -/
def onLeafTouch (colors : Colors) (config : Config) (floower : Feedback)
    (random : Nat → Nat) (a : Automaton) (event : FloowerTouchEvent) :
    Automaton × List Command :=
  match event with
  | .TOUCH_DOWN =>
    if a.state = STATE_OPEN_RAINBOW then
      ({ changeState a STATE_OPEN_LIT with disabledTouchUp := true },
        [.stopRainbowRetainColor])
    else if a.state = STATE_CLOSED_RAINBOW then
      ({ changeState a STATE_CLOSED_LIT with disabledTouchUp := true },
        [.stopRainbowRetainColor])
    else if a.state = STATE_REMOTE_INIT then
      (changeState a STATE_STANDBY,
        [.remoteStopAdvertising, .setColor colors.colorBlack .TRANSITION 500])
    else (a, [])
  | .TOUCH_UP =>
    if a.disabledTouchUp then
      ({ a with disabledTouchUp := false }, [])
    else if floower.isIdle then
      if a.state = STATE_STANDBY then
        if !floower.isLit then
          let p := nextRandomColor config random a.colorsUsed
          (changeState { a with colorsUsed := p.colorsUsed } STATE_OPEN_LIT,
            [.setColor p.color .TRANSITION 5000, .setPetalsOpenLevel 100 5000])
        else
          (changeState a STATE_OPEN_LIT, [.setPetalsOpenLevel 100 5000])
      else if a.state = STATE_OPEN_LIT then
        (changeState a STATE_CLOSED_LIT, [.setPetalsOpenLevel 0 5000])
      else if a.state = STATE_CLOSED_LIT then
        (changeState a STATE_STANDBY, [.setColor colors.colorBlack .TRANSITION 2000])
      else (a, [])
    else (a, [])
  | .TOUCH_LONG =>
    ({ changeState a (if a.state = STATE_OPEN_LIT then STATE_OPEN_RAINBOW
                      else STATE_CLOSED_RAINBOW) with disabledTouchUp := true },
      [.startRainbow])
  | .TOUCH_HOLD =>
    if a.state = STATE_STANDBY ∨ a.state = STATE_CLOSED_RAINBOW then
      ({ changeState a STATE_REMOTE_INIT with disabledTouchUp := true },
        [.setColor colors.colorBlue .FLASH 1000, .remoteInit, .remoteStartAdvertising])
    else (a, [])

/-- Embedding of `Automaton::onRemoteTookOver`. -/
def onRemoteTookOver (floower : Feedback) (a : Automaton) : Automaton × List Command :=
  if floower.petalsOpenLevel > 0 then (changeState a STATE_OPEN_LIT, [])
  else (changeState a STATE_STANDBY, [])

/-- One whole touch: `TOUCH_DOWN` followed by `TOUCH_UP`, each delivered with its
own actuator feedback and random draws.  Gives the automaton after the touch and
the commands of both calls, in order. -/
def touch (colors : Colors) (config : Config) (fDown fUp : Feedback)
    (rDown rUp : Nat → Nat) (a : Automaton) : Automaton × List Command :=
  let down := onLeafTouch colors config fDown rDown a .TOUCH_DOWN
  let up := onLeafTouch colors config fUp rUp down.1 .TOUCH_UP
  (up.1, down.2 ++ up.2)

/-! ## The transition table of the specification (section 4.1) -/

/-- The six automaton states named by the specification. -/
inductive AutomatonState where
  | Standby
  | OpenLit
  | ClosedLit
  | OpenRainbow
  | ClosedRainbow
  | RemoteInit
  deriving DecidableEq, Repr

/-- The state code that automaton.cpp uses for each state of the specification. -/
def AutomatonState.code : AutomatonState → Nat
  | .Standby => STATE_STANDBY
  | .OpenLit => STATE_OPEN_LIT
  | .ClosedLit => STATE_CLOSED_LIT
  | .OpenRainbow => STATE_OPEN_RAINBOW
  | .ClosedRainbow => STATE_CLOSED_RAINBOW
  | .RemoteInit => STATE_REMOTE_INIT

/-- The new state column of the transition table, written from the words of the
specification, not from the code: `suppress` is the SuppressReleaseFlag and
`idle` the guard "actuator idle".  PressStart is `TOUCH_DOWN`, Release is
`TOUCH_UP`, LongPress is `TOUCH_LONG` and HoldPress is `TOUCH_HOLD`. -/
def specNextState (s : AutomatonState) (event : FloowerTouchEvent)
    (suppress idle : Bool) : AutomatonState :=
  match event, s with
  | .TOUCH_DOWN, .OpenRainbow => .OpenLit
  | .TOUCH_DOWN, .ClosedRainbow => .ClosedLit
  | .TOUCH_DOWN, .RemoteInit => .Standby
  | .TOUCH_DOWN, other => other
  | .TOUCH_UP, s =>
    if suppress || !idle then s
    else
      match s with
      | .Standby => .OpenLit
      | .OpenLit => .ClosedLit
      | .ClosedLit => .Standby
      | other => other
  | .TOUCH_LONG, .OpenLit => .OpenRainbow
  | .TOUCH_LONG, _ => .ClosedRainbow
  | .TOUCH_HOLD, .Standby => .RemoteInit
  | .TOUCH_HOLD, .ClosedRainbow => .RemoteInit
  | .TOUCH_HOLD, other => other

/-! ## Sequences of picks -/

/-- The used colour mask after the first `k` of a sequence of `nextRandomColor`
calls that starts from the mask `colorsUsed`; call number `k` (counted from 0)
receives the random draws `randoms k`. -/
def colorsUsedAfter (config : Config) (randoms : Nat → Nat → Nat) (colorsUsed : Nat) :
    Nat → Nat
  | 0 => colorsUsed
  | k + 1 =>
    (nextRandomColor config (randoms k) (colorsUsedAfter config randoms colorsUsed k)).colorsUsed

/-- The result of call number `k` (counted from 0) of such a sequence of
`nextRandomColor` calls. -/
def nthPick (config : Config) (randoms : Nat → Nat → Nat) (colorsUsed : Nat)
    (k : Nat) : Pick :=
  nextRandomColor config (randoms k) (colorsUsedAfter config randoms colorsUsed k)

/-- The four colours of the palette of the cycle property of the specification. -/
def red : RgbColor := ⟨255, 0, 0⟩
def green : RgbColor := ⟨0, 255, 0⟩
def blue : RgbColor := ⟨0, 0, 255⟩
def yellow : RgbColor := ⟨255, 255, 0⟩

/-- A configuration with the palette of size 4 of the cycle property of the
specification: Red, Green, Blue, Yellow. -/
def palette4 : Config :=
  { colorSchemeSize := 4
    colorScheme := fun i =>
      match i with
      | 0 => red
      | 1 => green
      | 2 => blue
      | _ => yellow }

/-- The cycle property of the specification (section 8), for a palette of size 4
and a mask that is empty at first, as a property of the draws handed to five
consecutive picks: the first four picks return pairwise distinct colours that are
a permutation of Red, Green, Blue, Yellow, the mask is full (15) right after the
fourth pick, and the fifth pick resets it, so that afterwards the mask holds the
bit of the fifth pick only. -/
def cycleProperty (randoms : Nat → Nat → Nat) : Prop :=
  let colour := fun k => (nthPick palette4 randoms 0 k).color
  [colour 0, colour 1, colour 2, colour 3].Nodup ∧
  List.Perm [colour 0, colour 1, colour 2, colour 3] [red, green, blue, yellow] ∧
  colorsUsedAfter palette4 randoms 0 4 = 15 ∧
  resetIfAllUsed palette4 (colorsUsedAfter palette4 randoms 0 4) = 0 ∧
  colorsUsedAfter palette4 randoms 0 5 = 2 ^ (nthPick palette4 randoms 0 4).colorIndex

/-! ## Theorems -/

/-- The automaton after `changeState` has the new state and is otherwise as before,
whether or not the test `state != newState` succeeds. -/
theorem changeState_eq (a : Automaton) (newState : Nat) :
    changeState a newState = ⟨newState, a.disabledTouchUp, a.colorsUsed⟩ := by
  obtain ⟨s, flag, mask⟩ := a
  unfold changeState
  by_cases h : s = newState <;> simp [h]

/-- C1: for each of the six states, every gesture event and every value of the
suppress flag, of isIdle and of isLit (and every mask, palette and random draws),
the state after onLeafTouch is the code of the state that the transition table of
section 4.1 gives; being the code of a table state, it is again one of the six. -/
theorem onLeafTouch_state_matches_table (colors : Colors) (config : Config)
    (floower : Feedback) (random : Nat → Nat) (s : AutomatonState)
    (suppress : Bool) (mask : Nat) (event : FloowerTouchEvent) :
    (onLeafTouch colors config floower random ⟨s.code, suppress, mask⟩ event).1.state
      = (specNextState s event suppress floower.isIdle).code := by
  obtain ⟨idle, lit, level⟩ := floower
  cases s <;> cases event <;> cases suppress <;> cases idle <;> cases lit <;>
    simp [onLeafTouch, changeState, specNextState, AutomatonState.code,
      STATE_STANDBY, STATE_OPEN_LIT, STATE_CLOSED_LIT, STATE_OPEN_RAINBOW,
      STATE_CLOSED_RAINBOW, STATE_REMOTE_INIT]

/-- C2: suppression consumption.  From any starting automaton and with any actuator
feedback, after a LongPress the automaton is in a rainbow state; the next Release
issues no command, keeps that state and the mask and clears the suppress flag; a
second Release then finds the flag clear and does what the unsuppressed Release
rows of the table give for the rainbow state, which is again no command and the
same state. -/
theorem longPress_release_release (colors : Colors) (config : Config)
    (f1 f2 f3 : Feedback) (r1 r2 r3 : Nat → Nat) (a : Automaton) :
    let rainbow : AutomatonState :=
      if a.state = STATE_OPEN_LIT then .OpenRainbow else .ClosedRainbow
    let long := onLeafTouch colors config f1 r1 a .TOUCH_LONG
    let up1 := onLeafTouch colors config f2 r2 long.1 .TOUCH_UP
    let up2 := onLeafTouch colors config f3 r3 up1.1 .TOUCH_UP
    long.1.state = rainbow.code ∧ long.1.disabledTouchUp = true ∧
    up1.2 = [] ∧ up1.1.state = long.1.state ∧ up1.1.disabledTouchUp = false ∧
    up1.1.colorsUsed = long.1.colorsUsed ∧
    up2 = onLeafTouch colors config f3 r3 ⟨rainbow.code, false, a.colorsUsed⟩ .TOUCH_UP ∧
    up2.1.state = (specNextState rainbow .TOUCH_UP false f3.isIdle).code ∧
    up2.1.state = long.1.state ∧ up2.2 = [] ∧ up2.1.disabledTouchUp = false := by
  obtain ⟨s, flag, mask⟩ := a
  obtain ⟨idle3, lit3, level3⟩ := f3
  by_cases h : s = 1 <;> cases idle3 <;>
    simp [onLeafTouch, changeState_eq, specNextState, AutomatonState.code, h,
      STATE_STANDBY, STATE_OPEN_LIT, STATE_CLOSED_LIT, STATE_OPEN_RAINBOW,
      STATE_CLOSED_RAINBOW]

/-- C3: idle guard.  When the actuator reports isIdle = false at both deliveries,
two consecutive Release events, from any state and any value of the suppress flag,
leave the state as it was after each call and issue no command at all. -/
theorem release_twice_not_idle (colors : Colors) (config : Config)
    (f1 f2 : Feedback) (r1 r2 : Nat → Nat) (a : Automaton)
    (h1 : f1.isIdle = false) (h2 : f2.isIdle = false) :
    let up1 := onLeafTouch colors config f1 r1 a .TOUCH_UP
    let up2 := onLeafTouch colors config f2 r2 up1.1 .TOUCH_UP
    up1.1.state = a.state ∧ up1.2 = [] ∧ up1.1.colorsUsed = a.colorsUsed ∧
    up2.1.state = a.state ∧ up2.2 = [] ∧ up2.1.colorsUsed = a.colorsUsed := by
  obtain ⟨s, flag, mask⟩ := a
  cases flag <;> simp [onLeafTouch, h1, h2]

/-- Witness of C3 in state OpenLit with the suppress flag set at first. -/
theorem release_twice_not_idle_witness :
    (⟨false, true, 100⟩ : Feedback).isIdle = false ∧
    (⟨false, false, 100⟩ : Feedback).isIdle = false ∧
    (let up1 := onLeafTouch ⟨⟨0, 0, 0⟩, ⟨0, 0, 255⟩⟩ ⟨4, fun i => ⟨i, i, i⟩⟩
        ⟨false, true, 100⟩ (fun _ => 0) ⟨STATE_OPEN_LIT, true, 5⟩ .TOUCH_UP
     let up2 := onLeafTouch ⟨⟨0, 0, 0⟩, ⟨0, 0, 255⟩⟩ ⟨4, fun i => ⟨i, i, i⟩⟩
        ⟨false, false, 100⟩ (fun _ => 0) up1.1 .TOUCH_UP
     up1.1.state = STATE_OPEN_LIT ∧ up1.2 = [] ∧ up1.1.colorsUsed = 5 ∧
     up2.1.state = STATE_OPEN_LIT ∧ up2.2 = [] ∧ up2.1.colorsUsed = 5) :=
  ⟨rfl, rfl, release_twice_not_idle ⟨⟨0, 0, 0⟩, ⟨0, 0, 255⟩⟩ ⟨4, fun i => ⟨i, i, i⟩⟩
    ⟨false, true, 100⟩ ⟨false, false, 100⟩ (fun _ => 0) (fun _ => 0)
    ⟨STATE_OPEN_LIT, true, 5⟩ rfl rfl⟩

/-- C4: HoldPress guard.  In Standby and in ClosedRainbow a HoldPress flashes the
attention colour (colorBlue), then initialises the remote and starts advertising,
sets the suppress flag and moves to RemoteInit; in OpenLit, ClosedLit, OpenRainbow
and RemoteInit it issues no command and leaves the whole automaton (state, flag,
mask) as it was. -/
theorem holdPress_guard (colors : Colors) (config : Config) (floower : Feedback)
    (random : Nat → Nat) (suppress : Bool) (mask : Nat) :
    let hold := fun s =>
      onLeafTouch colors config floower random ⟨s, suppress, mask⟩ .TOUCH_HOLD
    let started : Automaton × List Command :=
      (⟨STATE_REMOTE_INIT, true, mask⟩,
       [.setColor colors.colorBlue .FLASH 1000, .remoteInit, .remoteStartAdvertising])
    hold STATE_STANDBY = started ∧
    hold STATE_CLOSED_RAINBOW = started ∧
    hold STATE_OPEN_LIT = (⟨STATE_OPEN_LIT, suppress, mask⟩, []) ∧
    hold STATE_CLOSED_LIT = (⟨STATE_CLOSED_LIT, suppress, mask⟩, []) ∧
    hold STATE_OPEN_RAINBOW = (⟨STATE_OPEN_RAINBOW, suppress, mask⟩, []) ∧
    hold STATE_REMOTE_INIT = (⟨STATE_REMOTE_INIT, suppress, mask⟩, []) := by
  simp [onLeafTouch, changeState_eq, STATE_STANDBY, STATE_OPEN_LIT, STATE_CLOSED_LIT,
    STATE_OPEN_RAINBOW, STATE_CLOSED_RAINBOW, STATE_REMOTE_INIT]

/-- C5: takeover resync.  From any prior automaton, onRemoteTookOver sets the state
to OpenLit when the reported petal openness is greater than 0 and to Standby
otherwise (so at openness 100 it is OpenLit and at openness 0 Standby); it issues no
command and keeps the suppress flag and the mask. -/
theorem onRemoteTookOver_resync (floower : Feedback) (a : Automaton) :
    (onRemoteTookOver floower a).1.state
      = (if floower.petalsOpenLevel > 0 then STATE_OPEN_LIT else STATE_STANDBY) ∧
    (onRemoteTookOver floower a).2 = [] ∧
    (onRemoteTookOver floower a).1.disabledTouchUp = a.disabledTouchUp ∧
    (onRemoteTookOver floower a).1.colorsUsed = a.colorsUsed ∧
    (onRemoteTookOver { floower with petalsOpenLevel := 100 } a).1.state
      = STATE_OPEN_LIT ∧
    (onRemoteTookOver { floower with petalsOpenLevel := 0 } a).1.state
      = STATE_STANDBY := by
  obtain ⟨s, flag, mask⟩ := a
  have key : ∀ g : Feedback,
      (onRemoteTookOver g ⟨s, flag, mask⟩).1.state
        = (if g.petalsOpenLevel > 0 then STATE_OPEN_LIT else STATE_STANDBY) ∧
      (onRemoteTookOver g ⟨s, flag, mask⟩).2 = [] ∧
      (onRemoteTookOver g ⟨s, flag, mask⟩).1.disabledTouchUp = flag ∧
      (onRemoteTookOver g ⟨s, flag, mask⟩).1.colorsUsed = mask := by
    intro g
    unfold onRemoteTookOver
    by_cases hl : g.petalsOpenLevel > 0 <;> simp [hl, changeState_eq]
  refine ⟨(key floower).1, (key floower).2.1, (key floower).2.2.1,
    (key floower).2.2.2, ?_, ?_⟩
  · simpa using (key { floower with petalsOpenLevel := 100 }).1
  · simpa using (key { floower with petalsOpenLevel := 0 }).1

/-- C6: Standby release action.  A Release in Standby with the suppress flag clear
and the actuator idle moves to OpenLit and issues setPetalsOpenLevel(100) as its
last command.  When isLit is false the commands are a TRANSITION setColor to the
colour of one nextRandomColor call on the current mask, then the petal command,
and the mask becomes the mask of that one call; when isLit is true the petal
command is the only command and the mask is unchanged. -/
theorem release_in_standby (colors : Colors) (config : Config) (level : Int)
    (random : Nat → Nat) (mask : Nat) :
    let a : Automaton := ⟨STATE_STANDBY, false, mask⟩
    let dark := onLeafTouch colors config ⟨true, false, level⟩ random a .TOUCH_UP
    let lit := onLeafTouch colors config ⟨true, true, level⟩ random a .TOUCH_UP
    let p := nextRandomColor config random mask
    dark = (⟨STATE_OPEN_LIT, false, p.colorsUsed⟩,
            [.setColor p.color .TRANSITION 5000, .setPetalsOpenLevel 100 5000]) ∧
    dark.2.getLast? = some (.setPetalsOpenLevel 100 5000) ∧
    lit = (⟨STATE_OPEN_LIT, false, mask⟩, [.setPetalsOpenLevel 100 5000]) ∧
    lit.2.getLast? = some (.setPetalsOpenLevel 100 5000) := by
  simp [onLeafTouch, changeState_eq, STATE_STANDBY, STATE_OPEN_LIT]

/-- C7, evaluated where it fails: in RemoteInit with the suppress flag clear, a touch
whose Release finds the actuator idle (and not lit) ends in OpenLit, not in Standby.
The PressStart stops advertising, fades to black and moves to Standby without
setting the suppress flag, so the Release of the same touch opens the flower. -/
theorem remoteInit_touch_idle_ends_open :
    touch ⟨⟨0, 0, 0⟩, ⟨0, 0, 255⟩⟩ ⟨4, fun i => ⟨i, i, i⟩⟩ ⟨false, true, 0⟩
        ⟨true, false, 0⟩ (fun _ => 0) (fun _ => 2) ⟨STATE_REMOTE_INIT, false, 0⟩
      = (⟨STATE_OPEN_LIT, false, 4⟩,
         [.remoteStopAdvertising, .setColor ⟨0, 0, 0⟩ .TRANSITION 500,
          .setColor ⟨2, 2, 2⟩ .TRANSITION 5000, .setPetalsOpenLevel 100 5000]) := by
  decide

/-- C8 as stated fails: a LongPress delivered in RemoteInit moves to ClosedRainbow,
so the resulting state is not RemoteInit, and its only command is startRainbow;
stopAdvertising is not among the commands of the call. -/
theorem remoteInit_longPress_keeps_advertising :
    onLeafTouch ⟨⟨0, 0, 0⟩, ⟨0, 0, 255⟩⟩ ⟨4, fun i => ⟨i, i, i⟩⟩ ⟨true, false, 0⟩
        (fun _ => 0) ⟨STATE_REMOTE_INIT, false, 0⟩ .TOUCH_LONG
      = (⟨STATE_CLOSED_RAINBOW, true, 0⟩, [.startRainbow]) ∧
    (onLeafTouch ⟨⟨0, 0, 0⟩, ⟨0, 0, 255⟩⟩ ⟨4, fun i => ⟨i, i, i⟩⟩ ⟨true, false, 0⟩
        (fun _ => 0) ⟨STATE_REMOTE_INIT, false, 0⟩ .TOUCH_LONG).2.contains
      .remoteStopAdvertising = false ∧
    ¬ ((onLeafTouch ⟨⟨0, 0, 0⟩, ⟨0, 0, 255⟩⟩ ⟨4, fun i => ⟨i, i, i⟩⟩ ⟨true, false, 0⟩
          (fun _ => 0) ⟨STATE_REMOTE_INIT, false, 0⟩ .TOUCH_LONG).1.state
        ≠ STATE_REMOTE_INIT →
      Command.remoteStopAdvertising ∈
        (onLeafTouch ⟨⟨0, 0, 0⟩, ⟨0, 0, 255⟩⟩ ⟨4, fun i => ⟨i, i, i⟩⟩ ⟨true, false, 0⟩
          (fun _ => 0) ⟨STATE_REMOTE_INIT, false, 0⟩ .TOUCH_LONG).2) := by
  decide

/-- C8, amended: for a PressStart, a Release or a HoldPress delivered to onLeafTouch
while the state is RemoteInit (any suppress flag, mask, feedback and draws), if the
resulting state is not RemoteInit then the commands of that call include the
remote stopAdvertising.  A LongPress delivered in RemoteInit always wins: it moves
to ClosedRainbow and its only command is startRainbow. -/
theorem remoteInit_exit_stops_advertising (colors : Colors) (config : Config)
    (floower : Feedback) (random : Nat → Nat) (suppress : Bool) (mask : Nat)
    (event : FloowerTouchEvent) (hevent : event ≠ .TOUCH_LONG)
    (hleft : (onLeafTouch colors config floower random
        ⟨STATE_REMOTE_INIT, suppress, mask⟩ event).1.state ≠ STATE_REMOTE_INIT) :
    Command.remoteStopAdvertising ∈
      (onLeafTouch colors config floower random
        ⟨STATE_REMOTE_INIT, suppress, mask⟩ event).2 ∧
    onLeafTouch colors config floower random
        ⟨STATE_REMOTE_INIT, suppress, mask⟩ .TOUCH_LONG
      = (⟨STATE_CLOSED_RAINBOW, true, mask⟩, [.startRainbow]) := by
  obtain ⟨idle, lit, level⟩ := floower
  refine ⟨?_, by
    simp [onLeafTouch, changeState_eq, STATE_OPEN_LIT, STATE_REMOTE_INIT]⟩
  cases event with
  | TOUCH_DOWN =>
    simp [onLeafTouch, STATE_OPEN_RAINBOW, STATE_CLOSED_RAINBOW, STATE_REMOTE_INIT]
  | TOUCH_UP =>
    exfalso
    apply hleft
    cases suppress <;> cases idle <;>
      simp [onLeafTouch, STATE_STANDBY, STATE_OPEN_LIT, STATE_CLOSED_LIT,
        STATE_REMOTE_INIT]
  | TOUCH_LONG => exact absurd rfl hevent
  | TOUCH_HOLD =>
    exfalso
    apply hleft
    simp [onLeafTouch, STATE_STANDBY, STATE_CLOSED_RAINBOW, STATE_REMOTE_INIT]

/-- Witness of the amended C8: a PressStart in RemoteInit leaves for Standby and its
commands include stopAdvertising. -/
theorem remoteInit_exit_stops_advertising_witness :
    FloowerTouchEvent.TOUCH_DOWN ≠ .TOUCH_LONG ∧
    (onLeafTouch ⟨⟨0, 0, 0⟩, ⟨0, 0, 255⟩⟩ ⟨4, fun i => ⟨i, i, i⟩⟩ ⟨true, false, 0⟩
        (fun _ => 0) ⟨STATE_REMOTE_INIT, false, 0⟩ .TOUCH_DOWN).1.state
      ≠ STATE_REMOTE_INIT ∧
    Command.remoteStopAdvertising ∈
      (onLeafTouch ⟨⟨0, 0, 0⟩, ⟨0, 0, 255⟩⟩ ⟨4, fun i => ⟨i, i, i⟩⟩ ⟨true, false, 0⟩
        (fun _ => 0) ⟨STATE_REMOTE_INIT, false, 0⟩ .TOUCH_DOWN).2 ∧
    onLeafTouch ⟨⟨0, 0, 0⟩, ⟨0, 0, 255⟩⟩ ⟨4, fun i => ⟨i, i, i⟩⟩ ⟨true, false, 0⟩
        (fun _ => 0) ⟨STATE_REMOTE_INIT, false, 0⟩ .TOUCH_LONG
      = (⟨STATE_CLOSED_RAINBOW, true, 0⟩, [.startRainbow]) :=
  ⟨by decide, by decide,
    remoteInit_exit_stops_advertising ⟨⟨0, 0, 0⟩, ⟨0, 0, 255⟩⟩ ⟨4, fun i => ⟨i, i, i⟩⟩
      ⟨true, false, 0⟩ (fun _ => 0) false 0 .TOUCH_DOWN (by decide) (by decide)⟩

/-- C9: rainbow exit by touch.  A PressStart in OpenRainbow (ClosedRainbow) issues
exactly one command, stopRainbowRetainColor, moves to OpenLit (ClosedLit) and sets
the suppress flag; the Release that completes the touch then issues no command and
leaves the state at OpenLit (ClosedLit), whatever the actuator reports; the mask is
unchanged throughout. -/
theorem rainbow_exit_by_touch (colors : Colors) (config : Config)
    (fDown fUp : Feedback) (rDown rUp : Nat → Nat) (suppress : Bool) (mask : Nat) :
    let down := fun s =>
      onLeafTouch colors config fDown rDown ⟨s, suppress, mask⟩ .TOUCH_DOWN
    let up := fun s =>
      onLeafTouch colors config fUp rUp (down s).1 .TOUCH_UP
    down STATE_OPEN_RAINBOW = (⟨STATE_OPEN_LIT, true, mask⟩, [.stopRainbowRetainColor]) ∧
    up STATE_OPEN_RAINBOW = (⟨STATE_OPEN_LIT, false, mask⟩, []) ∧
    down STATE_CLOSED_RAINBOW
      = (⟨STATE_CLOSED_LIT, true, mask⟩, [.stopRainbowRetainColor]) ∧
    up STATE_CLOSED_RAINBOW = (⟨STATE_CLOSED_LIT, false, mask⟩, []) ∧
    touch colors config fDown fUp rDown rUp ⟨STATE_OPEN_RAINBOW, suppress, mask⟩
      = (⟨STATE_OPEN_LIT, false, mask⟩, [.stopRainbowRetainColor]) ∧
    touch colors config fDown fUp rDown rUp ⟨STATE_CLOSED_RAINBOW, suppress, mask⟩
      = (⟨STATE_CLOSED_LIT, false, mask⟩, [.stopRainbowRetainColor]) := by
  simp [touch, onLeafTouch, changeState_eq, STATE_OPEN_LIT, STATE_CLOSED_LIT,
    STATE_OPEN_RAINBOW, STATE_CLOSED_RAINBOW]

/-- C10: three touch cycle.  From Standby with the suppress flag clear, and with the
actuator idle at every Release, three touches (PressStart then Release each) lead to
OpenLit, then ClosedLit, then Standby again.  The first touch ends with
setPetalsOpenLevel(100), the second issues setPetalsOpenLevel(0) only and the third
a TRANSITION setColor to black only. -/
theorem three_touch_cycle (colors : Colors) (config : Config)
    (d1 d2 d3 : Feedback) (lit1 lit2 lit3 : Bool) (level1 level2 level3 : Int)
    (rd1 ru1 rd2 ru2 rd3 ru3 : Nat → Nat) (mask : Nat) :
    let t1 := touch colors config d1 ⟨true, lit1, level1⟩ rd1 ru1
      ⟨STATE_STANDBY, false, mask⟩
    let t2 := touch colors config d2 ⟨true, lit2, level2⟩ rd2 ru2 t1.1
    let t3 := touch colors config d3 ⟨true, lit3, level3⟩ rd3 ru3 t2.1
    t1.1.state = STATE_OPEN_LIT ∧
    Command.setPetalsOpenLevel 100 5000 ∈ t1.2 ∧
    t1.2.getLast? = some (.setPetalsOpenLevel 100 5000) ∧
    t2.1.state = STATE_CLOSED_LIT ∧
    t2.2 = [.setPetalsOpenLevel 0 5000] ∧
    t3.1.state = STATE_STANDBY ∧
    t3.2 = [.setColor colors.colorBlack .TRANSITION 2000] ∧
    t3.1.disabledTouchUp = false := by
  cases lit1 <;>
    simp [touch, onLeafTouch, changeState_eq, STATE_STANDBY, STATE_OPEN_LIT,
      STATE_CLOSED_LIT, STATE_OPEN_RAINBOW, STATE_CLOSED_RAINBOW, STATE_REMOTE_INIT]

/-! ### The colour picker -/

/-- For an index below 32 the word `1 << colorIndex` is the power of two. -/
theorem colorCode_eq (d : Nat) (h : d < 32) : (1 <<< d) % 2 ^ 32 = 2 ^ d := by
  rw [Nat.one_shiftLeft]
  exact Nat.mod_eq_of_lt (Nat.pow_lt_pow_right (by decide) h)

/-- The loop test `(colorsUsed & colorCode) > 0` reads bit `d` of the mask. -/
theorem used_iff_testBit (M d : Nat) (h : d < 32) :
    (M &&& (1 <<< d) % 2 ^ 32) > 0 ↔ M.testBit d = true := by
  rw [colorCode_eq d h, Nat.and_two_pow]
  cases hb : M.testBit d <;> simp

/-- Adding the word of a bit that is not in the mask sets that bit. -/
theorem add_two_pow_eq_or (M d : Nat) (h : M.testBit d = false) :
    M + 2 ^ d = M ||| 2 ^ d := by
  have hb : M % 2 ^ (d + 1) < 2 ^ d := by
    apply Nat.lt_pow_two_of_testBit
    intro i hi
    rw [Nat.testBit_mod_two_pow]
    by_cases hlt : i < d + 1
    · have : i = d := by omega
      simp [this, h]
    · simp [hlt]
  have hM : M = 2 ^ (d + 1) * (M / 2 ^ (d + 1)) + M % 2 ^ (d + 1) :=
    (Nat.div_add_mod M (2 ^ (d + 1))).symm
  generalize M / 2 ^ (d + 1) = a at hM
  generalize M % 2 ^ (d + 1) = b at hM hb
  have h1 : b + 2 ^ d < 2 ^ (d + 1) := by rw [Nat.pow_succ]; omega
  have h2 : 2 ^ d + b = 2 ^ d ||| b := by
    have := Nat.mul_add_lt_is_or hb 1
    simpa using this
  calc M + 2 ^ d = 2 ^ (d + 1) * a + (b + 2 ^ d) := by omega
    _ = 2 ^ (d + 1) * a ||| (b + 2 ^ d) := Nat.mul_add_lt_is_or h1 a
    _ = 2 ^ (d + 1) * a ||| (2 ^ d ||| b) := by rw [Nat.add_comm b, h2]
    _ = (2 ^ (d + 1) * a ||| b) ||| 2 ^ d := by
        rw [Nat.lor_comm (2 ^ d) b, Nat.lor_assoc]
    _ = (2 ^ (d + 1) * a + b) ||| 2 ^ d := by rw [Nat.mul_add_lt_is_or (by omega) a]
    _ = M ||| 2 ^ d := by rw [← hM]

/-- The loop returns the first draw whose bit is not in the mask, when there is one
within the budget: if draw `j` (counted from `pos`) is the first unused one and
`j` is below the budget, the loop stops there, after `j + 1` draws. -/
theorem drawLoop_first_unused (M : Nat) (random : Nat → Nat)
    (hd : ∀ i, random i < 32) :
    ∀ (fuel pos j : Nat), j < fuel →
      (∀ i, i < j → M.testBit (random (pos + i)) = true) →
      M.testBit (random (pos + j)) = false →
      drawLoop M random fuel pos = (random (pos + j), pos + j + 1) := by
  intro fuel
  induction fuel with
  | zero => intro pos j hj; omega
  | succ m ih =>
    intro pos j hj hused hfree
    have h256 : random pos % 256 = random pos :=
      Nat.mod_eq_of_lt (lt_trans (hd pos) (by decide))
    cases j with
    | zero =>
      have hnot : ¬ (M &&& (1 <<< random pos) % 2 ^ 32) > 0 := by
        rw [used_iff_testBit M _ (hd pos)]
        simpa using hfree
      simp only [drawLoop, h256]
      rw [if_neg (fun hc => hnot hc.1)]
      simp
    | succ j =>
      have hu : (M &&& (1 <<< random pos) % 2 ^ 32) > 0 := by
        rw [used_iff_testBit M _ (hd pos)]
        simpa using hused 0 (Nat.succ_pos j)
      have hm : m > 0 := by omega
      simp only [drawLoop, h256]
      rw [if_pos ⟨hu, hm⟩]
      have := ih (pos + 1) j (by omega)
        (fun i hi => by
          have := hused (i + 1) (by omega)
          rwa [show pos + (i + 1) = pos + 1 + i by omega] at this)
        (by rwa [show pos + (j + 1) = pos + 1 + j by omega] at hfree)
      rw [this]
      simp only [Prod.mk.injEq]
      constructor
      · congr 1; omega
      · omega

/-- When every draw within the budget is already used, the loop gives up after
the whole budget and returns the last draw. -/
theorem drawLoop_all_used (M : Nat) (random : Nat → Nat)
    (hd : ∀ i, random i < 32) :
    ∀ (fuel pos : Nat), 0 < fuel →
      (∀ i, i < fuel → M.testBit (random (pos + i)) = true) →
      drawLoop M random fuel pos = (random (pos + fuel - 1), pos + fuel) := by
  intro fuel
  induction fuel with
  | zero => intro pos h; omega
  | succ m ih =>
    intro pos _ hused
    have h256 : random pos % 256 = random pos :=
      Nat.mod_eq_of_lt (lt_trans (hd pos) (by decide))
    have hu : (M &&& (1 <<< random pos) % 2 ^ 32) > 0 := by
      rw [used_iff_testBit M _ (hd pos)]
      simpa using hused 0 (Nat.succ_pos m)
    simp only [drawLoop, h256]
    by_cases hm : m > 0
    · rw [if_pos ⟨hu, hm⟩]
      have := ih (pos + 1) hm (fun i hi => by
        have := hused (i + 1) (by omega)
        rwa [show pos + (i + 1) = pos + 1 + i by omega] at this)
      rw [this]
      simp only [Prod.mk.injEq]
      constructor
      · congr 1; omega
      · omega
    · rw [if_neg (fun hc => hm hc.2)]
      have : m = 0 := by omega
      subst this
      simp

/-- The loop never makes more draws than its budget (one draw when the budget
is zero). -/
theorem drawLoop_draws_le (M : Nat) (random : Nat → Nat) :
    ∀ (fuel pos : Nat), (drawLoop M random fuel pos).2 ≤ pos + max fuel 1 := by
  intro fuel
  induction fuel with
  | zero => intro pos; simp [drawLoop]
  | succ m ih =>
    intro pos
    simp only [drawLoop]
    split
    · have := ih (pos + 1)
      rename_i hc
      have hm : m > 0 := hc.2
      rw [Nat.max_eq_left (by omega)] at this
      rw [Nat.max_eq_left (by omega)]
      omega
    · simp

/-- The index the loop returns is one of the draws, cut to a byte; so it is below
every bound that all draws respect. -/
theorem drawLoop_index_lt (M : Nat) (random : Nat → Nat) (N : Nat)
    (hd : ∀ i, random i < N) :
    ∀ (fuel pos : Nat), (drawLoop M random fuel pos).1 < N := by
  intro fuel
  induction fuel with
  | zero =>
    intro pos
    exact lt_of_le_of_lt (Nat.mod_le _ _) (hd pos)
  | succ m ih =>
    intro pos
    simp only [drawLoop]
    split
    · exact ih (pos + 1)
    · exact lt_of_le_of_lt (Nat.mod_le _ _) (hd pos)

/-- When some draw within the budget `3 * colorSchemeSize` is not yet in the mask,
one call of `nextRandomColor` leaves the mask alone at its reset test, returns an
index below the palette size whose bit was not in the mask, and sets exactly that
bit.  The palette is assumed to fit the 32 bit mask. -/
theorem nextRandomColor_lucky (config : Config) (random : Nat → Nat) (M : Nat)
    (hN : config.colorSchemeSize ≤ 32) (hM : M < 2 ^ 32)
    (hd : ∀ i, random i < config.colorSchemeSize)
    (hl : ∃ j, j < 3 * config.colorSchemeSize ∧ M.testBit (random j) = false) :
    resetIfAllUsed config M = M ∧
    (nextRandomColor config random M).colorIndex < config.colorSchemeSize ∧
    M.testBit (nextRandomColor config random M).colorIndex = false ∧
    (nextRandomColor config random M).colorsUsed
      = M ||| 2 ^ (nextRandomColor config random M).colorIndex := by
  have hd32 : ∀ i, random i < 32 := fun i => lt_of_lt_of_le (hd i) hN
  have hreset : resetIfAllUsed config M = M := by
    unfold resetIfAllUsed
    split
    · simp only
      split
      · rename_i hfull
        obtain ⟨j, _, hj⟩ := hl
        have hlt : 2 ^ config.colorSchemeSize - 1 < 2 ^ 32 :=
          lt_of_lt_of_le (Nat.sub_lt (Nat.two_pow_pos _) (by decide))
            (Nat.pow_le_pow_right (by decide) hN)
        rw [Nat.mod_eq_of_lt hlt] at hfull
        rw [← hfull, Nat.testBit_two_pow_sub_one] at hj
        simp [hd j] at hj
      · rfl
    · rfl
  classical
  have hex : ∃ j, j < 3 * config.colorSchemeSize ∧ M.testBit (random j) = false := hl
  have hj := Nat.find_spec hex
  have hmin : ∀ i, i < Nat.find hex → M.testBit (random i) = true := by
    intro i hi
    have := Nat.find_min hex hi
    have hlt : i < 3 * config.colorSchemeSize := lt_trans hi hj.1
    cases hb : M.testBit (random i)
    · exact absurd ⟨hlt, hb⟩ this
    · rfl
  have hloop := drawLoop_first_unused M random hd32 (config.colorSchemeSize * 3) 0
    (Nat.find hex) (by have := hj.1; omega)
    (fun i hi => by simpa using hmin i hi) (by simpa using hj.2)
  simp only [Nat.zero_add] at hloop
  have hidx : (nextRandomColor config random M).colorIndex = random (Nat.find hex) := by
    simp only [nextRandomColor, hreset, hloop]
  have hmask : (nextRandomColor config random M).colorsUsed
      = (M + (1 <<< random (Nat.find hex)) % 2 ^ 32) % 2 ^ 32 := by
    simp only [nextRandomColor, hreset, hloop]
  refine ⟨hreset, ?_, ?_, ?_⟩
  · rw [hidx]; exact hd _
  · rw [hidx]; exact hj.2
  · rw [hmask, hidx, colorCode_eq _ (hd32 _), add_two_pow_eq_or M _ hj.2]
    exact Nat.mod_eq_of_lt
      (Nat.or_lt_two_pow hM (Nat.pow_lt_pow_right (by decide) (hd32 _)))

/-! ### The automaton, continued -/

/-- C11: suppress flag invariant.  For every state, every prior value of the
suppress flag, every mask and every actuator feedback, the suppress flag is clear
when onLeafTouch(Release) returns; so a flag that some gesture has set does not
outlive the next Release. -/
theorem release_clears_suppress (colors : Colors) (config : Config)
    (floower : Feedback) (random : Nat → Nat) (a : Automaton) :
    (onLeafTouch colors config floower random a .TOUCH_UP).1.disabledTouchUp = false := by
  obtain ⟨s, flag, mask⟩ := a
  cases flag
  · simp only [onLeafTouch, changeState_eq]
    split_ifs <;> simp
  · simp [onLeafTouch]

/-- C12: LongPress always wins.  For every state, every value of the suppress flag
and every actuator feedback, onLeafTouch(LongPress) issues exactly one command,
startRainbow, sets the suppress flag, keeps the mask and moves to OpenRainbow when
the prior state was OpenLit and to ClosedRainbow otherwise; two deliveries in the
same state give the same result whatever the feedback, the draws and the prior
flag are. -/
theorem longPress_always_wins (colors : Colors) (config : Config)
    (f1 f2 : Feedback) (r1 r2 : Nat → Nat) (s : Nat) (flag1 flag2 : Bool)
    (mask : Nat) :
    onLeafTouch colors config f1 r1 ⟨s, flag1, mask⟩ .TOUCH_LONG
      = (⟨if s = STATE_OPEN_LIT then STATE_OPEN_RAINBOW else STATE_CLOSED_RAINBOW,
          true, mask⟩, [.startRainbow]) ∧
    onLeafTouch colors config f1 r1 ⟨s, flag1, mask⟩ .TOUCH_LONG
      = onLeafTouch colors config f2 r2 ⟨s, flag2, mask⟩ .TOUCH_LONG ∧
    (onLeafTouch colors config f1 r1 ⟨STATE_OPEN_LIT, flag1, mask⟩ .TOUCH_LONG).1.state
      = STATE_OPEN_RAINBOW := by
  simp [onLeafTouch, changeState_eq]

/-- C13: unsatisfied guards are complete no-ops.  A PressStart in Standby, OpenLit
or ClosedLit, and a Release with the suppress flag clear in OpenRainbow,
ClosedRainbow or RemoteInit, with the actuator idle or not, issue no command and
leave the state, the suppress flag and the mask as they were. -/
theorem unsatisfied_guards_are_noops (colors : Colors) (config : Config)
    (floower : Feedback) (random : Nat → Nat) (suppress : Bool) (mask : Nat) :
    let down := fun s =>
      onLeafTouch colors config floower random ⟨s, suppress, mask⟩ .TOUCH_DOWN
    let up := fun s =>
      onLeafTouch colors config floower random ⟨s, false, mask⟩ .TOUCH_UP
    down STATE_STANDBY = (⟨STATE_STANDBY, suppress, mask⟩, []) ∧
    down STATE_OPEN_LIT = (⟨STATE_OPEN_LIT, suppress, mask⟩, []) ∧
    down STATE_CLOSED_LIT = (⟨STATE_CLOSED_LIT, suppress, mask⟩, []) ∧
    up STATE_OPEN_RAINBOW = (⟨STATE_OPEN_RAINBOW, false, mask⟩, []) ∧
    up STATE_CLOSED_RAINBOW = (⟨STATE_CLOSED_RAINBOW, false, mask⟩, []) ∧
    up STATE_REMOTE_INIT = (⟨STATE_REMOTE_INIT, false, mask⟩, []) := by
  simp [onLeafTouch, STATE_STANDBY, STATE_OPEN_LIT, STATE_CLOSED_LIT,
    STATE_OPEN_RAINBOW, STATE_CLOSED_RAINBOW, STATE_REMOTE_INIT]

/-- A mask with all bits of the palette set, for a palette of at least one colour
that fits the 32 bit mask, is cleared by the reset test. -/
theorem resetIfAllUsed_full (config : Config) (hN : config.colorSchemeSize ≤ 32)
    (hpos : 0 < config.colorSchemeSize) :
    resetIfAllUsed config (2 ^ config.colorSchemeSize - 1) = 0 := by
  have hlt : 2 ^ config.colorSchemeSize - 1 < 2 ^ 32 :=
    lt_of_lt_of_le (Nat.sub_lt (Nat.two_pow_pos _) (by decide))
      (Nat.pow_le_pow_right (by decide) hN)
  have hfull : 2 ^ config.colorSchemeSize - 1 > 0 := by
    have : 2 ^ 1 ≤ 2 ^ config.colorSchemeSize := Nat.pow_le_pow_right (by decide) hpos
    omega
  unfold resetIfAllUsed
  rw [if_pos hfull]
  simp only [Nat.mod_eq_of_lt hlt, if_true]

/-- With the empty mask the loop stops after its first draw. -/
theorem drawLoop_empty_mask (random : Nat → Nat) (fuel : Nat) (h : 0 < fuel) :
    drawLoop 0 random fuel 0 = (random 0 % 256, 1) := by
  obtain ⟨m, hm⟩ : ∃ m, fuel = m + 1 := ⟨fuel - 1, by omega⟩
  rw [hm]
  simp [drawLoop]

/-! ### Claims on the colour picker -/

/-- C14, evaluated where it fails: palette size 2, mask 1 (index 0 used), every draw
0.  The reset test leaves the mask at 1, all 6 draws are already used, index 0 is
returned on the best-effort path and `colorsUsed += colorCode` gives 1 + 1 = 2:
bit 0 is cleared and bit 1 is set, whereas the mask with bit 0 set is 1. -/
theorem nextRandomColor_repeat_corrupts_mask :
    resetIfAllUsed ⟨2, fun i => ⟨i, i, i⟩⟩ 1 = 1 ∧
    nextRandomColor ⟨2, fun i => ⟨i, i, i⟩⟩ (fun _ => 0) 1
      = { color := ⟨0, 0, 0⟩, colorIndex := 0, colorsUsed := 2, draws := 6 } ∧
    (nextRandomColor ⟨2, fun i => ⟨i, i, i⟩⟩ (fun _ => 0) 1).colorsUsed
      ≠ resetIfAllUsed ⟨2, fun i => ⟨i, i, i⟩⟩ 1
          ||| 2 ^ (nextRandomColor ⟨2, fun i => ⟨i, i, i⟩⟩ (fun _ => 0) 1).colorIndex := by
  decide

/-- C16: palette exhaustion resets the mask.  For a palette of size N, with N at
least 1 and within the 32 bit mask, called with the mask 2^N - 1 (all N bits set),
nextRandomColor clears the mask at its reset test, accepts and returns the very
first draw d (one draw is made), and leaves the mask at exactly 2^d. -/
theorem nextRandomColor_full_mask_resets (config : Config) (random : Nat → Nat)
    (hN : config.colorSchemeSize ≤ 32) (hd : random 0 < config.colorSchemeSize) :
    resetIfAllUsed config (2 ^ config.colorSchemeSize - 1) = 0 ∧
    nextRandomColor config random (2 ^ config.colorSchemeSize - 1)
      = { color := config.colorScheme (random 0), colorIndex := random 0,
          colorsUsed := 2 ^ random 0, draws := 1 } := by
  have hpos : 0 < config.colorSchemeSize := by omega
  have hd32 : random 0 < 32 := lt_of_lt_of_le hd hN
  have hreset := resetIfAllUsed_full config hN hpos
  have hloop := drawLoop_empty_mask random (config.colorSchemeSize * 3) (by omega)
  rw [Nat.mod_eq_of_lt (show random 0 < 256 by omega)] at hloop
  refine ⟨hreset, ?_⟩
  simp only [nextRandomColor, hreset, hloop, colorCode_eq _ hd32, Nat.zero_add]
  rw [Nat.mod_eq_of_lt (Nat.pow_lt_pow_right (by decide) hd32)]

/-- Witness of C16: palette of size 4, mask 15, first draw 2. -/
theorem nextRandomColor_full_mask_resets_witness :
    palette4.colorSchemeSize ≤ 32 ∧ (fun _ : Nat => 2) 0 < palette4.colorSchemeSize ∧
    resetIfAllUsed palette4 (2 ^ palette4.colorSchemeSize - 1) = 0 ∧
    nextRandomColor palette4 (fun _ => 2) (2 ^ palette4.colorSchemeSize - 1)
      = { color := palette4.colorScheme ((fun _ : Nat => 2) 0),
          colorIndex := (fun _ : Nat => 2) 0,
          colorsUsed := 2 ^ (fun _ : Nat => 2) 0, draws := 1 } :=
  ⟨by decide, by decide,
    nextRandomColor_full_mask_resets palette4 (fun _ => 2) (by decide) (by decide)⟩

/-- C17: bounded retry selection rule.  Let N be the palette size, within the 32 bit
mask, M the mask after the reset test and let every draw be below N (so N is at
least 1); positions of draws are counted from 0.  If position k, below the budget
3N, is the first whose draw is not in M, nextRandomColor returns that draw and has
made exactly k + 1 draws.  If all of the first 3N draws are in M, it returns the
last of them, after exactly 3N draws.  So it never makes more than 3N draws, and
when the index it returns is in M, all of the first 3N draws were in M. -/
theorem nextRandomColor_selection (config : Config) (random : Nat → Nat)
    (colorsUsed : Nat) (hN : config.colorSchemeSize ≤ 32)
    (hd : ∀ i, random i < config.colorSchemeSize) :
    let M := resetIfAllUsed config colorsUsed
    let p := nextRandomColor config random colorsUsed
    let budget := 3 * config.colorSchemeSize
    (∀ k, k < budget → (∀ i, i < k → M.testBit (random i) = true) →
      M.testBit (random k) = false → p.colorIndex = random k ∧ p.draws = k + 1) ∧
    ((∀ i, i < budget → M.testBit (random i) = true) →
      p.colorIndex = random (budget - 1) ∧ p.draws = budget) ∧
    p.draws ≤ budget ∧
    (M.testBit p.colorIndex = true → ∀ i, i < budget → M.testBit (random i) = true) := by
  intro M p budget
  have hd32 : ∀ i, random i < 32 := fun i => lt_of_lt_of_le (hd i) hN
  have hpos : 0 < config.colorSchemeSize := lt_of_le_of_lt (Nat.zero_le _) (hd 0)
  have hp1 : p.colorIndex = (drawLoop M random (config.colorSchemeSize * 3) 0).1 := rfl
  have hp2 : p.draws = (drawLoop M random (config.colorSchemeSize * 3) 0).2 := rfl
  have first : ∀ k, k < budget → (∀ i, i < k → M.testBit (random i) = true) →
      M.testBit (random k) = false → p.colorIndex = random k ∧ p.draws = k + 1 := by
    intro k hk hused hfree
    have hloop := drawLoop_first_unused M random hd32 (config.colorSchemeSize * 3) 0 k
      (by simp only [budget] at hk; omega) (fun i hi => by simpa using hused i hi)
      (by simpa using hfree)
    simp only [Nat.zero_add] at hloop
    rw [hp1, hp2, hloop]
    exact ⟨rfl, rfl⟩
  refine ⟨first, ?_, ?_, ?_⟩
  · intro hused
    have hloop := drawLoop_all_used M random hd32 (config.colorSchemeSize * 3) 0
      (by omega) (fun i hi => by
        simpa using hused i (by simp only [budget]; omega))
    simp only [Nat.zero_add] at hloop
    rw [hp1, hp2, hloop]
    simp only [budget]
    constructor
    · congr 1; omega
    · omega
  · have := drawLoop_draws_le M random (config.colorSchemeSize * 3) 0
    rw [Nat.max_eq_left (by omega)] at this
    rw [hp2]
    simp only [budget]
    omega
  · intro hret
    by_contra hcon
    have hex : ∃ k, k < budget ∧ M.testBit (random k) = false := by
      by_contra hno
      apply hcon
      intro i hi
      cases hb : M.testBit (random i)
      · exact absurd ⟨i, hi, hb⟩ hno
      · rfl
    classical
    have hk := Nat.find_spec hex
    have hmin : ∀ i, i < Nat.find hex → M.testBit (random i) = true := by
      intro i hi
      have := Nat.find_min hex hi
      cases hb : M.testBit (random i)
      · exact absurd ⟨lt_trans hi hk.1, hb⟩ this
      · rfl
    have := (first (Nat.find hex) hk.1 hmin hk.2).1
    rw [this, hk.2] at hret
    exact Bool.noConfusion hret

/-- Witness of C17: palette of size 2, mask 1, draws 0, 0, 1, 1, ...; the first
unused draw is at position 2, so index 1 is returned after 3 draws. -/
theorem nextRandomColor_selection_witness :
    (⟨2, fun i => ⟨i, i, i⟩⟩ : Config).colorSchemeSize ≤ 32 ∧
    (∀ i, (fun i : Nat => if i < 2 then 0 else 1) i < 2) ∧
    (nextRandomColor ⟨2, fun i => ⟨i, i, i⟩⟩ (fun i => if i < 2 then 0 else 1) 1).colorIndex
      = 1 ∧
    (nextRandomColor ⟨2, fun i => ⟨i, i, i⟩⟩ (fun i => if i < 2 then 0 else 1) 1).draws
      = 3 :=
  have hd : ∀ i, (fun i : Nat => if i < 2 then 0 else 1) i < 2 := by
    intro i
    simp only
    split <;> decide
  ⟨by decide, hd,
    (nextRandomColor_selection ⟨2, fun i => ⟨i, i, i⟩⟩
      (fun i => if i < 2 then 0 else 1) 1 (by decide) hd).1 2 (by decide)
      (by decide) (by decide)⟩

/-- C18, evaluated where it fails: palette size 2, mask 2 (index 1 used, within
2^2 - 1), every draw 1.  All 6 draws are already used, index 1 is returned on the
best-effort path and `colorsUsed += colorCode` gives 2 + 2 = 4, a mask with bit 2
set, outside the 2 palette indices. -/
theorem nextRandomColor_repeat_leaves_palette :
    2 ≤ 2 ^ (⟨2, fun i => ⟨i, i, i⟩⟩ : Config).colorSchemeSize - 1 ∧
    nextRandomColor ⟨2, fun i => ⟨i, i, i⟩⟩ (fun _ => 1) 2
      = { color := ⟨1, 1, 1⟩, colorIndex := 1, colorsUsed := 4, draws := 6 } ∧
    (nextRandomColor ⟨2, fun i => ⟨i, i, i⟩⟩ (fun _ => 1) 2).colorsUsed.testBit 2
      = true := by
  decide

/-- C20: palette index in bounds.  For every palette size N, every mask and every
sequence of draws that all lie below N (so N is at least 1), the index at which
nextRandomColor reads colorScheme is below N, also when the retry budget runs out;
the colour returned is the palette entry at that index. -/
theorem nextRandomColor_index_lt (config : Config) (random : Nat → Nat)
    (colorsUsed : Nat) (hd : ∀ i, random i < config.colorSchemeSize) :
    (nextRandomColor config random colorsUsed).colorIndex < config.colorSchemeSize ∧
    (nextRandomColor config random colorsUsed).color
      = config.colorScheme (nextRandomColor config random colorsUsed).colorIndex :=
  ⟨drawLoop_index_lt _ random _ hd _ 0, rfl⟩

/-- Witness of C20 on the best-effort path: palette of size 2, mask 1, every draw 0. -/
theorem nextRandomColor_index_lt_witness :
    (∀ i, (fun _ : Nat => 0) i < (⟨2, fun i => ⟨i, i, i⟩⟩ : Config).colorSchemeSize) ∧
    (nextRandomColor ⟨2, fun i => ⟨i, i, i⟩⟩ (fun _ => 0) 1).colorIndex
      < (⟨2, fun i => ⟨i, i, i⟩⟩ : Config).colorSchemeSize ∧
    (nextRandomColor ⟨2, fun i => ⟨i, i, i⟩⟩ (fun _ => 0) 1).color
      = (⟨2, fun i => ⟨i, i, i⟩⟩ : Config).colorScheme
          (nextRandomColor ⟨2, fun i => ⟨i, i, i⟩⟩ (fun _ => 0) 1).colorIndex :=
  ⟨fun _ => Nat.zero_lt_two,
    nextRandomColor_index_lt ⟨2, fun i => ⟨i, i, i⟩⟩ (fun _ => 0) 1
      (fun _ => Nat.zero_lt_two)⟩

/-! ### Cycles of lucky picks -/

/-- Invariant of a run of lucky picks from the empty mask.  If each of the first
`n` calls finds, within its budget, a draw that is not in the mask it starts from,
then after these calls the mask holds exactly the bits of the indices returned so
far, these indices are pairwise distinct and below the palette size, and the mask
is a 32 bit word. -/
theorem lucky_prefix (config : Config) (randoms : Nat → Nat → Nat)
    (hN : config.colorSchemeSize ≤ 32)
    (hd : ∀ k i, randoms k i < config.colorSchemeSize) :
    ∀ n, (∀ k, k < n → ∃ j, j < 3 * config.colorSchemeSize ∧
        (colorsUsedAfter config randoms 0 k).testBit (randoms k j) = false) →
      (∀ i, (colorsUsedAfter config randoms 0 n).testBit i = true ↔
        ∃ k, k < n ∧ (nthPick config randoms 0 k).colorIndex = i) ∧
      (∀ a b, a < n → b < n →
        (nthPick config randoms 0 a).colorIndex = (nthPick config randoms 0 b).colorIndex →
        a = b) ∧
      (∀ k, k < n → (nthPick config randoms 0 k).colorIndex < config.colorSchemeSize) ∧
      colorsUsedAfter config randoms 0 n < 2 ^ 32 := by
  intro n
  induction n with
  | zero =>
    intro _
    refine ⟨fun i => ?_, fun a b ha => absurd ha (Nat.not_lt_zero a),
      fun k hk => absurd hk (Nat.not_lt_zero k), by simp [colorsUsedAfter]⟩
    simp [colorsUsedAfter]
  | succ n ih =>
    intro hl
    obtain ⟨hbits, hinj, hlt, hword⟩ := ih (fun k hk => hl k (Nat.lt_succ_of_lt hk))
    obtain ⟨_, hidx, hfree, hmask⟩ :=
      nextRandomColor_lucky config (randoms n) (colorsUsedAfter config randoms 0 n)
        hN hword (hd n) (hl n (Nat.lt_succ_self n))
    have hstep : colorsUsedAfter config randoms 0 (n + 1)
        = colorsUsedAfter config randoms 0 n
            ||| 2 ^ (nthPick config randoms 0 n).colorIndex := hmask
    have hidx2 : (nthPick config randoms 0 n).colorIndex < config.colorSchemeSize := hidx
    have hfree2 : (colorsUsedAfter config randoms 0 n).testBit
        (nthPick config randoms 0 n).colorIndex = false := hfree
    have hnew : ∀ k, k < n →
        (nthPick config randoms 0 k).colorIndex ≠ (nthPick config randoms 0 n).colorIndex := by
      intro k hk heq
      have : (colorsUsedAfter config randoms 0 n).testBit
          (nthPick config randoms 0 n).colorIndex = true :=
        (hbits _).2 ⟨k, hk, heq⟩
      rw [hfree2] at this
      exact Bool.noConfusion this
    refine ⟨fun i => ?_, ?_, ?_, ?_⟩
    · rw [hstep, Nat.testBit_or, Nat.testBit_two_pow, Bool.or_eq_true, hbits i,
        decide_eq_true_eq]
      constructor
      · rintro (⟨k, hk, hki⟩ | h)
        · exact ⟨k, Nat.lt_succ_of_lt hk, hki⟩
        · exact ⟨n, Nat.lt_succ_self n, h⟩
      · rintro ⟨k, hk, hki⟩
        rcases Nat.lt_succ_iff_lt_or_eq.1 hk with h | h
        · exact Or.inl ⟨k, h, hki⟩
        · exact Or.inr (h ▸ hki)
    · intro a b ha hb hab
      rcases Nat.lt_succ_iff_lt_or_eq.1 ha with ha | ha <;>
        rcases Nat.lt_succ_iff_lt_or_eq.1 hb with hb | hb
      · exact hinj a b ha hb hab
      · subst hb; exact absurd hab (hnew a ha)
      · subst ha; exact absurd hab.symm (hnew b hb)
      · rw [ha, hb]
    · intro k hk
      rcases Nat.lt_succ_iff_lt_or_eq.1 hk with h | h
      · exact hlt k h
      · rw [h]; exact hidx2
    · rw [hstep]
      exact Nat.or_lt_two_pow hword
        (Nat.pow_lt_pow_right (by decide) (lt_of_lt_of_le hidx2 hN))

/-- A full cycle of lucky picks from the empty mask: when each of the first N calls
(N the palette size, within the 32 bit mask) finds an unused draw within its budget,
the N indices returned are pairwise distinct, every index below N is returned, the
list of indices is a permutation of 0, ..., N - 1, and the mask after the N calls is
2^N - 1. -/
theorem lucky_cycle (config : Config) (randoms : Nat → Nat → Nat)
    (hN : config.colorSchemeSize ≤ 32)
    (hd : ∀ k i, randoms k i < config.colorSchemeSize)
    (hl : ∀ k, k < config.colorSchemeSize → ∃ j, j < 3 * config.colorSchemeSize ∧
        (colorsUsedAfter config randoms 0 k).testBit (randoms k j) = false) :
    (∀ a b, a < config.colorSchemeSize → b < config.colorSchemeSize →
      (nthPick config randoms 0 a).colorIndex = (nthPick config randoms 0 b).colorIndex →
      a = b) ∧
    (∀ i, i < config.colorSchemeSize →
      ∃ k, k < config.colorSchemeSize ∧ (nthPick config randoms 0 k).colorIndex = i) ∧
    List.Perm
      ((List.range config.colorSchemeSize).map
        (fun k => (nthPick config randoms 0 k).colorIndex))
      (List.range config.colorSchemeSize) ∧
    colorsUsedAfter config randoms 0 config.colorSchemeSize
      = 2 ^ config.colorSchemeSize - 1 := by
  obtain ⟨hbits, hinj, hlt, _⟩ :=
    lucky_prefix config randoms hN hd config.colorSchemeSize hl
  have hsurj : ∀ i, i < config.colorSchemeSize →
      ∃ k, k < config.colorSchemeSize ∧ (nthPick config randoms 0 k).colorIndex = i := by
    intro i hi
    let f : Fin config.colorSchemeSize → Fin config.colorSchemeSize :=
      fun k => ⟨(nthPick config randoms 0 k.1).colorIndex, hlt k.1 k.2⟩
    have hf : Function.Injective f := by
      intro a b hab
      exact Fin.ext (hinj a.1 b.1 a.2 b.2 (congrArg Fin.val hab))
    obtain ⟨k, hk⟩ := (Finite.injective_iff_surjective.1 hf) ⟨i, hi⟩
    exact ⟨k.1, k.2, congrArg Fin.val hk⟩
  refine ⟨hinj, hsurj, ?_, ?_⟩
  · apply (List.perm_ext_iff_of_nodup ?_ (List.nodup_range _)).2
    · intro a
      simp only [List.mem_map, List.mem_range]
      constructor
      · rintro ⟨k, hk, rfl⟩
        exact hlt k hk
      · intro ha
        exact hsurj a ha
    · apply List.Nodup.map_on _ (List.nodup_range _)
      intro x hx y hy hxy
      exact hinj x y (List.mem_range.1 hx) (List.mem_range.1 hy) hxy
  · apply Nat.eq_of_testBit_eq
    intro i
    rw [Nat.testBit_two_pow_sub_one]
    by_cases hi : i < config.colorSchemeSize
    · rw [(hbits i).2 (hsurj i hi)]
      simp [hi]
    · have : ¬ (colorsUsedAfter config randoms 0 config.colorSchemeSize).testBit i = true := by
        rw [hbits i]
        rintro ⟨k, hk, rfl⟩
        exact hi (hlt k hk)
      simp only [Bool.not_eq_true] at this
      rw [this]
      simp [hi]

/-- C19: lucky draw cycle is an exact permutation.  For a palette of size N within
the 32 bit mask and draws that all lie below N (so N is at least 1), starting from
the empty mask: if in each of N consecutive nextRandomColor calls at least one of
the first 3N draws is an index not yet in the mask, then the N indices returned are
pairwise distinct, together they cover all indices below N (the list of them is a
permutation of 0, ..., N - 1), and the mask after the N-th call is exactly 2^N - 1,
which the reset test of the following call clears. -/
theorem lucky_cycle_is_permutation (config : Config) (randoms : Nat → Nat → Nat)
    (hN : config.colorSchemeSize ≤ 32)
    (hd : ∀ k i, randoms k i < config.colorSchemeSize)
    (hl : ∀ k, k < config.colorSchemeSize → ∃ j, j < 3 * config.colorSchemeSize ∧
        (colorsUsedAfter config randoms 0 k).testBit (randoms k j) = false) :
    let N := config.colorSchemeSize
    let index := fun k => (nthPick config randoms 0 k).colorIndex
    (∀ a b, a < N → b < N → index a = index b → a = b) ∧
    ((List.range N).map index).Nodup ∧
    (∀ i, i < N → ∃ k, k < N ∧ index k = i) ∧
    List.Perm ((List.range N).map index) (List.range N) ∧
    colorsUsedAfter config randoms 0 N = 2 ^ N - 1 ∧
    resetIfAllUsed config (colorsUsedAfter config randoms 0 N) = 0 := by
  intro N index
  obtain ⟨hinj, hsurj, hperm, hmask⟩ := lucky_cycle config randoms hN hd hl
  have hpos : 0 < config.colorSchemeSize := lt_of_le_of_lt (Nat.zero_le _) (hd 0 0)
  refine ⟨hinj, ?_, hsurj, hperm, hmask, ?_⟩
  · exact (List.Perm.nodup_iff hperm).2 (List.nodup_range _)
  · rw [hmask]
    exact resetIfAllUsed_full config hN hpos

/-- Witness of C19: palette of size 4, call number k draws k % 4 every time, so the
four calls return 0, 1, 2, 3 and the mask ends at 15. -/
theorem lucky_cycle_is_permutation_witness :
    palette4.colorSchemeSize ≤ 32 ∧
    (∀ k i, (fun (k : Nat) (_ : Nat) => k % 4) k i < palette4.colorSchemeSize) ∧
    (∀ k, k < palette4.colorSchemeSize → ∃ j, j < 3 * palette4.colorSchemeSize ∧
      (colorsUsedAfter palette4 (fun k _ => k % 4) 0 k).testBit
        ((fun (k : Nat) (_ : Nat) => k % 4) k j) = false) ∧
    colorsUsedAfter palette4 (fun k _ => k % 4) 0 palette4.colorSchemeSize
      = 2 ^ palette4.colorSchemeSize - 1 :=
  have hd : ∀ k i, (fun (k : Nat) (_ : Nat) => k % 4) k i < palette4.colorSchemeSize :=
    fun k _ => Nat.mod_lt k (by decide)
  have hl : ∀ k, k < palette4.colorSchemeSize → ∃ j, j < 3 * palette4.colorSchemeSize ∧
      (colorsUsedAfter palette4 (fun k _ => k % 4) 0 k).testBit
        ((fun (k : Nat) (_ : Nat) => k % 4) k j) = false := by
    decide
  ⟨by decide, hd, hl,
    (lucky_cycle_is_permutation palette4 (fun k _ => k % 4) (by decide) hd hl).2.2.2.2.1⟩

/-- C15 as stated fails: with the palette of size 4, the mask empty at first and
every draw equal to 0 (all draws lie below 4), the four picks all return index 0,
that is Red four times, and the mask after the fourth pick is 4, not 15; so the
cycle property does not hold for these draws. -/
theorem cycleProperty_fails_on_repeated_draws :
    (∀ k i, (fun (_ : Nat) (_ : Nat) => 0) k i < palette4.colorSchemeSize) ∧
    (List.range 4).map (fun k => (nthPick palette4 (fun _ _ => 0) 0 k).colorIndex)
      = [0, 0, 0, 0] ∧
    colorsUsedAfter palette4 (fun _ _ => 0) 0 4 = 4 ∧
    ¬ cycleProperty (fun _ _ => 0) := by
  refine ⟨fun _ _ => (show 0 < 4 by decide), by decide, by decide, ?_⟩
  intro h
  exact absurd h.2.2.1 (by decide)

/-- C15, amended: with the palette of size 4 (Red, Green, Blue, Yellow) and the mask
empty at first, for all draws below 4 such that each of the first four picks has,
among its first 12 draws, an index that is not yet in the mask, the cycle property
holds: the four picks return pairwise distinct colours, a permutation of the
palette, the mask is 15 right after the fourth pick, and the fifth pick resets it
and leaves only its own bit in the mask. -/
theorem cycleProperty_of_lucky_draws (randoms : Nat → Nat → Nat)
    (hd : ∀ k i, randoms k i < palette4.colorSchemeSize)
    (hl : ∀ k, k < palette4.colorSchemeSize → ∃ j, j < 3 * palette4.colorSchemeSize ∧
        (colorsUsedAfter palette4 randoms 0 k).testBit (randoms k j) = false) :
    cycleProperty randoms := by
  obtain ⟨_, _, hperm, hmask⟩ := lucky_cycle palette4 randoms (by decide) hd hl
  have hmask4 : colorsUsedAfter palette4 randoms 0 4 = 15 := hmask
  have hcolours : List.Perm
      [(nthPick palette4 randoms 0 0).color, (nthPick palette4 randoms 0 1).color,
        (nthPick palette4 randoms 0 2).color, (nthPick palette4 randoms 0 3).color]
      [red, green, blue, yellow] :=
    List.Perm.map palette4.colorScheme hperm
  have hd0 : randoms 4 0 < 4 := hd 4 0
  have hreset : resetIfAllUsed palette4 15 = 0 := by decide
  have hloop := drawLoop_empty_mask (randoms 4) (palette4.colorSchemeSize * 3) (by decide)
  rw [Nat.mod_eq_of_lt (show randoms 4 0 < 256 by omega)] at hloop
  have hfifth : nextRandomColor palette4 (randoms 4) 15
      = { color := palette4.colorScheme (randoms 4 0), colorIndex := randoms 4 0,
          colorsUsed := 2 ^ randoms 4 0, draws := 1 } := by
    simp only [nextRandomColor, hreset, hloop, colorCode_eq _ (show randoms 4 0 < 32 by omega),
      Nat.zero_add]
    rw [Nat.mod_eq_of_lt (Nat.pow_lt_pow_right (by decide) (show randoms 4 0 < 32 by omega))]
  refine ⟨(List.Perm.nodup_iff hcolours).2 (by decide), hcolours, hmask4, ?_, ?_⟩
  · rw [hmask4]; exact hreset
  · show (nextRandomColor palette4 (randoms 4) (colorsUsedAfter palette4 randoms 0 4)).colorsUsed
      = 2 ^ (nextRandomColor palette4 (randoms 4)
          (colorsUsedAfter palette4 randoms 0 4)).colorIndex
    rw [hmask4, hfifth]

/-- Witness of the amended C15: call number k draws k % 4 every time; the four picks
return Red, Green, Blue, Yellow. -/
theorem cycleProperty_of_lucky_draws_witness :
    (∀ k i, (fun (k : Nat) (_ : Nat) => k % 4) k i < palette4.colorSchemeSize) ∧
    (∀ k, k < palette4.colorSchemeSize → ∃ j, j < 3 * palette4.colorSchemeSize ∧
      (colorsUsedAfter palette4 (fun k _ => k % 4) 0 k).testBit
        ((fun (k : Nat) (_ : Nat) => k % 4) k j) = false) ∧
    cycleProperty (fun k _ => k % 4) :=
  have hd : ∀ k i, (fun (k : Nat) (_ : Nat) => k % 4) k i < palette4.colorSchemeSize :=
    fun k _ => Nat.mod_lt k (by decide)
  have hl : ∀ k, k < palette4.colorSchemeSize → ∃ j, j < 3 * palette4.colorSchemeSize ∧
      (colorsUsedAfter palette4 (fun k _ => k % 4) 0 k).testBit
        ((fun (k : Nat) (_ : Nat) => k % 4) k j) = false := by
    decide
  ⟨hd, hl, cycleProperty_of_lucky_draws (fun k _ => k % 4) hd hl⟩

end Floower
